import Mathlib

/-!
Verification development for the GeoWeld GeoJSON processor.

This file gives a shallow embedding, in Lean 4, of the algorithmic core of
`src/src/processor.py` and `src/src/constants.py`: the tiered tree-density
model, the area-proportional tree distribution, the adaptive point sampler,
the boundary clipper, the area calculator, and the output-merging
orchestrator, together with theorems about their behaviour.

Conventions of the embedding:
* Python floats are modelled as rationals (`ℚ`); Python ints as `ℤ` or `ℕ`.
* `int(x)` (truncation toward zero) is modelled by `pyInt`.
* Randomness (`random.uniform`, `random.sample`) is modelled by passing the
  stream of random draws explicitly as input data.
* Planar geometry operations performed by the external shapely library are
  modelled set-theoretically (finite point sets with intersection) or by
  abstract metric fields carried on a geometry record.
-/

namespace GeoWeld

/-! ### Constants (src/src/constants.py) -/

def HECTARE_TO_SQ_METERS : ℚ := 10000

def MAX_TREE_ATTEMPTS : ℕ := 100

def DEFAULT_MAX_TREES_PER_POLYGON : ℤ := 1000

def MIN_TREES_PER_POLYGON : ℤ := 1

/-- Python `int()` applied to a float: truncation toward zero. -/
def pyInt (q : ℚ) : ℤ := if 0 ≤ q then ⌊q⌋ else ⌈q⌉

theorem pyInt_of_nonneg (q : ℚ) (h : 0 ≤ q) : pyInt q = ⌊q⌋ := by
  simp [pyInt, h]

/-! ### Tree Density Model (processor.py, `calculate_tree_count`, lines 453-478)

The resolved tree configuration object, as produced by the configuration
loader before the core runs (thresholds in square meters, densities in
trees per hectare, count bounds as integers). -/

structure TreeConfig where
  min_area_for_trees : ℚ
  small_area_threshold : ℚ
  medium_area_threshold : ℚ
  large_area_threshold : ℚ
  extra_large_area_threshold : ℚ
  trees_per_small_hectare : ℚ
  trees_per_medium_hectare : ℚ
  trees_per_large_hectare : ℚ
  trees_per_extra_large_hectare : ℚ
  max_trees_per_polygon : ℤ
  min_trees_per_polygon : ℤ

/-- Embedding of `ResortProcessor.calculate_tree_count` (processor.py
lines 453-478): tiered density selection, `int()` conversion, then the
max-then-min clamp exactly as in the source. -/
def calculate_tree_count (cfg : TreeConfig) (area_sq_meters : ℚ) : ℤ :=
  if area_sq_meters < cfg.min_area_for_trees then 0
  else
    let hectares := area_sq_meters / HECTARE_TO_SQ_METERS
    let trees_per_hectare :=
      if area_sq_meters ≤ cfg.small_area_threshold then cfg.trees_per_small_hectare
      else if area_sq_meters ≤ cfg.medium_area_threshold then cfg.trees_per_medium_hectare
      else if area_sq_meters ≤ cfg.large_area_threshold then cfg.trees_per_large_hectare
      else cfg.trees_per_extra_large_hectare
    let tree_count := pyInt (hectares * trees_per_hectare)
    let tree_count := max cfg.min_trees_per_polygon tree_count
    let tree_count := min cfg.max_trees_per_polygon tree_count
    tree_count

/-- Statement of the tree-density model written independently from the
specification text: rate selected by the first matching threshold,
`floor((a / 10000) * rate)`, clamped into the configured interval. -/
def tree_count_from_spec (cfg : TreeConfig) (a : ℚ) : ℤ :=
  if a < cfg.min_area_for_trees then 0
  else
    let rate :=
      if a ≤ cfg.small_area_threshold then cfg.trees_per_small_hectare
      else if a ≤ cfg.medium_area_threshold then cfg.trees_per_medium_hectare
      else if a ≤ cfg.large_area_threshold then cfg.trees_per_large_hectare
      else cfg.trees_per_extra_large_hectare
    min cfg.max_trees_per_polygon (max cfg.min_trees_per_polygon ⌊a / 10000 * rate⌋)

/-! ### Proportional tree distribution
(processor.py, `_distribute_trees_across_polygons`, lines 700-722)

The source computes `polygon_areas` by applying the area calculator to each
polygon part; the distribution logic itself consumes only that list of
areas, so the embedding takes the list of part areas directly. -/

/-- Embedding of the accumulation loop of `_distribute_trees_across_polygons`:
every part except the last appends `max 0 (int(total * area / total_area))`,
the last part appends `max 0 (total - trees_distributed)`, where
`trees_distributed` accumulates the pre-`max` counts, as in the source. -/
def distribute_loop (total : ℤ) (total_area : ℚ) :
    List ℚ → ℤ → List ℤ
  | [], _ => []
  | [_], trees_distributed => [max 0 (total - trees_distributed)]
  | a :: b :: rest, trees_distributed =>
    let tree_count := pyInt ((total : ℚ) * (a / total_area))
    max 0 tree_count :: distribute_loop total total_area (b :: rest) (trees_distributed + tree_count)

/-- Embedding of `_distribute_trees_across_polygons` (lines 700-722), taking
the list of per-part areas (the source computes them from the polygon list
via `_calculate_area_in_sq_meters`). -/
def distribute_trees_across_polygons (polygon_areas : List ℚ) (total_tree_count : ℤ) : List ℤ :=
  let total_area := polygon_areas.sum
  if total_area = 0 then polygon_areas.map fun _ => 0
  else distribute_loop total_tree_count total_area polygon_areas 0

/-! ### Theorems about the Tree Density Model -/

/-- C2: for every non-negative area and every valid tree configuration
(strictly increasing thresholds, positive densities, coherent count bounds),
`calculate_tree_count` returns 0 below `min_area_for_trees` and otherwise
equals the specified tier selection with `floor((a / 10000) * rate)` clamped
into `[min_trees_per_polygon, max_trees_per_polygon]`. -/
theorem calculate_tree_count_follows_spec (cfg : TreeConfig) (a : ℚ)
    (ht1 : cfg.small_area_threshold < cfg.medium_area_threshold)
    (ht2 : cfg.medium_area_threshold < cfg.large_area_threshold)
    (ht3 : cfg.large_area_threshold < cfg.extra_large_area_threshold)
    (hd1 : 0 < cfg.trees_per_small_hectare)
    (hd2 : 0 < cfg.trees_per_medium_hectare)
    (hd3 : 0 < cfg.trees_per_large_hectare)
    (hd4 : 0 < cfg.trees_per_extra_large_hectare)
    (hbounds : cfg.min_trees_per_polygon ≤ cfg.max_trees_per_polygon)
    (ha : 0 ≤ a) :
    calculate_tree_count cfg a = tree_count_from_spec cfg a
    ∧ (a < cfg.min_area_for_trees → calculate_tree_count cfg a = 0)
    ∧ (¬ a < cfg.min_area_for_trees →
        cfg.min_trees_per_polygon ≤ calculate_tree_count cfg a
        ∧ calculate_tree_count cfg a ≤ cfg.max_trees_per_polygon) := by
  have hrate : 0 <
      (if a ≤ cfg.small_area_threshold then cfg.trees_per_small_hectare
       else if a ≤ cfg.medium_area_threshold then cfg.trees_per_medium_hectare
       else if a ≤ cfg.large_area_threshold then cfg.trees_per_large_hectare
       else cfg.trees_per_extra_large_hectare) := by
    split
    · exact hd1
    · split
      · exact hd2
      · split
        · exact hd3
        · exact hd4
  have hprod : 0 ≤ a / HECTARE_TO_SQ_METERS *
      (if a ≤ cfg.small_area_threshold then cfg.trees_per_small_hectare
       else if a ≤ cfg.medium_area_threshold then cfg.trees_per_medium_hectare
       else if a ≤ cfg.large_area_threshold then cfg.trees_per_large_hectare
       else cfg.trees_per_extra_large_hectare) := by
    apply mul_nonneg
    · apply div_nonneg ha
      norm_num [HECTARE_TO_SQ_METERS]
    · exact le_of_lt hrate
  refine ⟨?_, ?_, ?_⟩
  · by_cases hm : a < cfg.min_area_for_trees
    · simp [calculate_tree_count, tree_count_from_spec, hm]
    · simp only [calculate_tree_count, tree_count_from_spec, hm, if_false]
      rw [pyInt_of_nonneg _ hprod]
      norm_num [HECTARE_TO_SQ_METERS]
  · intro hm
    simp [calculate_tree_count, hm]
  · intro hm
    simp only [calculate_tree_count, hm, if_false]
    constructor
    · exact le_min hbounds (le_max_left _ _)
    · exact min_le_left _ _

/-- Witness for `calculate_tree_count_follows_spec` at a concrete valid
configuration and concrete area. -/
theorem calculate_tree_count_follows_spec_witness :
    calculate_tree_count
        { min_area_for_trees := 1, small_area_threshold := 5, medium_area_threshold := 80000,
          large_area_threshold := 100000, extra_large_area_threshold := 200000,
          trees_per_small_hectare := 4, trees_per_medium_hectare := 10,
          trees_per_large_hectare := 20, trees_per_extra_large_hectare := 40,
          max_trees_per_polygon := 1000, min_trees_per_polygon := 1 } 30000
      = tree_count_from_spec
        { min_area_for_trees := 1, small_area_threshold := 5, medium_area_threshold := 80000,
          large_area_threshold := 100000, extra_large_area_threshold := 200000,
          trees_per_small_hectare := 4, trees_per_medium_hectare := 10,
          trees_per_large_hectare := 20, trees_per_extra_large_hectare := 40,
          max_trees_per_polygon := 1000, min_trees_per_polygon := 1 } 30000 :=
  (calculate_tree_count_follows_spec _ 30000 (by norm_num) (by norm_num) (by norm_num)
    (by norm_num) (by norm_num) (by norm_num) (by norm_num) (by norm_num) (by norm_num)).1

/-! ### The section-8 fixture (C7) -/

/-- The section-8 test fixture configuration: thresholds
[3000, 20000, 100000, 200000] square meters, densities [2, 4, 15, 40]
trees per hectare, default count bounds. -/
def section8_config : TreeConfig where
  min_area_for_trees := 3000
  small_area_threshold := 3000
  medium_area_threshold := 20000
  large_area_threshold := 100000
  extra_large_area_threshold := 200000
  trees_per_small_hectare := 2
  trees_per_medium_hectare := 4
  trees_per_large_hectare := 15
  trees_per_extra_large_hectare := 40
  max_trees_per_polygon := DEFAULT_MAX_TREES_PER_POLYGON
  min_trees_per_polygon := MIN_TREES_PER_POLYGON

/-- C7 counterexample: with the section-8 fixture, an area of exactly
100,000 square meters yields 150 trees (10 hectares at the large-tier rate
of 15 per hectare), not the 300 the claim states; the pre-clamp value
`int(hectares * rate)` is likewise 150, not 300. -/
theorem section8_counterexample :
    calculate_tree_count section8_config 100000 = 150
    ∧ pyInt ((100000 : ℚ) / HECTARE_TO_SQ_METERS * section8_config.trees_per_large_hectare) = 150
    ∧ (150 : ℤ) ≠ 300 := by
  refine ⟨?_, ?_, by decide⟩
  · norm_num [calculate_tree_count, section8_config, HECTARE_TO_SQ_METERS, pyInt,
      DEFAULT_MAX_TREES_PER_POLYGON, MIN_TREES_PER_POLYGON]
  · norm_num [section8_config, HECTARE_TO_SQ_METERS, pyInt]

/-- C7 amended: with the section-8 fixture, an area of exactly 100,000
square meters selects the large tier (15 trees per hectare) and yields
`int(10 hectares * 15) = 150` trees, which the clamp to
`[min_trees_per_polygon, max_trees_per_polygon]` leaves unchanged. -/
theorem section8_large_tier :
    calculate_tree_count section8_config 100000
      = min section8_config.max_trees_per_polygon
          (max section8_config.min_trees_per_polygon
            (pyInt ((100000 : ℚ) / HECTARE_TO_SQ_METERS * section8_config.trees_per_large_hectare)))
    ∧ calculate_tree_count section8_config 100000 = 150
    ∧ section8_config.medium_area_threshold < (100000 : ℚ)
    ∧ (100000 : ℚ) ≤ section8_config.large_area_threshold := by
  refine ⟨?_, ?_, ?_, ?_⟩
  · norm_num [calculate_tree_count, section8_config, HECTARE_TO_SQ_METERS, pyInt,
      DEFAULT_MAX_TREES_PER_POLYGON, MIN_TREES_PER_POLYGON]
  · norm_num [calculate_tree_count, section8_config, HECTARE_TO_SQ_METERS, pyInt,
      DEFAULT_MAX_TREES_PER_POLYGON, MIN_TREES_PER_POLYGON]
  · norm_num [section8_config]
  · norm_num [section8_config]

/-! ### Theorems about the proportional distribution -/

theorem intCast_list_sum (l : List ℤ) :
    ((l.sum : ℤ) : ℚ) = (l.map fun z : ℤ => (z : ℚ)).sum := by
  induction l with
  | nil => simp
  | cons a t ih => simp [ih]

/-- Closed form of the distribution loop: the clamped per-part counts for
every part except the last, then the clamped remainder. -/
theorem distribute_loop_eq (total : ℤ) (S : ℚ) :
    ∀ (l : List ℚ) (d : ℤ), l ≠ [] →
      distribute_loop total S l d =
        (l.dropLast.map fun a => max 0 (pyInt ((total : ℚ) * (a / S))))
          ++ [max 0 (total - d
                - ((l.dropLast.map fun a => pyInt ((total : ℚ) * (a / S))).sum))] := by
  intro l
  induction l with
  | nil => intro d h; exact absurd rfl h
  | cons a t ih =>
    intro d _
    cases t with
    | nil => simp [distribute_loop]
    | cons b rest =>
      have step := ih (d + pyInt ((total : ℚ) * (a / S))) (by simp)
      have harith :
          total - (d + pyInt ((total : ℚ) * (a / S)))
              - ((((b :: rest).dropLast.map fun x => pyInt ((total : ℚ) * (x / S)))).sum)
            = total - d
              - (pyInt ((total : ℚ) * (a / S))
                  + (((b :: rest).dropLast.map fun x => pyInt ((total : ℚ) * (x / S)))).sum) := by
        ring
      simp only [distribute_loop, step, List.dropLast_cons₂, List.map_cons, List.sum_cons,
        List.cons_append, harith]

/-- C3: for any non-empty list of positive part areas and non-negative
total, `distribute_trees_across_polygons` gives every part except the last
`floor(total * part_area / total_area)`, gives the last part the remainder,
every assigned count is non-negative, and the counts sum exactly to the
total. -/
theorem sum_map_mul_div (t S : ℚ) (l : List ℚ) :
    (l.map fun a => t * a / S).sum = t / S * l.sum := by
  induction l with
  | nil => simp
  | cons a rest ih =>
    simp only [List.map_cons, List.sum_cons, ih]
    ring

theorem distribute_trees_across_polygons_spec (areas : List ℚ) (total : ℤ)
    (hne : areas ≠ []) (hpos : ∀ a ∈ areas, 0 < a) (htot : 0 ≤ total) :
    distribute_trees_across_polygons areas total =
      (areas.dropLast.map fun a => ⌊(total : ℚ) * a / areas.sum⌋)
        ++ [total - ((areas.dropLast.map fun a => ⌊(total : ℚ) * a / areas.sum⌋).sum)]
    ∧ (∀ c ∈ distribute_trees_across_polygons areas total, 0 ≤ c)
    ∧ (distribute_trees_across_polygons areas total).sum = total := by
  have hS : 0 < areas.sum := List.sum_pos areas hpos hne
  have hS0 : ¬ areas.sum = 0 := ne_of_gt hS
  have hfloor_eq : ∀ a ∈ areas.dropLast,
      pyInt ((total : ℚ) * (a / areas.sum)) = ⌊(total : ℚ) * a / areas.sum⌋ := by
    intro a hadrop
    have hapos : 0 < a := hpos a (List.dropLast_subset areas hadrop)
    have hnn : 0 ≤ (total : ℚ) * (a / areas.sum) := by
      apply mul_nonneg
      · exact_mod_cast htot
      · exact le_of_lt (div_pos hapos hS)
    rw [pyInt_of_nonneg _ hnn, mul_div_assoc]
  have hfloor_nonneg : ∀ a ∈ areas.dropLast,
      (0 : ℤ) ≤ ⌊(total : ℚ) * a / areas.sum⌋ := by
    intro a hadrop
    have hapos : 0 < a := hpos a (List.dropLast_subset areas hadrop)
    apply Int.floor_nonneg.mpr
    rw [mul_div_assoc]
    apply mul_nonneg
    · exact_mod_cast htot
    · exact le_of_lt (div_pos hapos hS)
  have hmap_eq :
      (areas.dropLast.map fun a => pyInt ((total : ℚ) * (a / areas.sum)))
        = areas.dropLast.map fun a => ⌊(total : ℚ) * a / areas.sum⌋ :=
    List.map_congr_left hfloor_eq
  have hmap_max_eq :
      (areas.dropLast.map fun a => max 0 (pyInt ((total : ℚ) * (a / areas.sum))))
        = areas.dropLast.map fun a => ⌊(total : ℚ) * a / areas.sum⌋ := by
    apply List.map_congr_left
    intro a hadrop
    rw [hfloor_eq a hadrop]
    exact max_eq_right (hfloor_nonneg a hadrop)
  -- the accumulated floor counts never exceed the total
  have hsum_le : (areas.dropLast.map fun a => ⌊(total : ℚ) * a / areas.sum⌋).sum ≤ total := by
    have hdrople : areas.dropLast.sum ≤ areas.sum := by
      have hsplit : areas.dropLast ++ [areas.getLast hne] = areas :=
        List.dropLast_concat_getLast hne
      have hlastpos : 0 < areas.getLast hne := hpos _ (List.getLast_mem hne)
      have hsum : areas.dropLast.sum + areas.getLast hne = areas.sum := by
        conv_rhs => rw [← hsplit]
        rw [List.sum_append, List.sum_cons, List.sum_nil, add_zero]
      linarith
    have hle1 :
        ((areas.dropLast.map fun a => ⌊(total : ℚ) * a / areas.sum⌋).map
            fun z : ℤ => (z : ℚ)).sum
          ≤ (areas.dropLast.map fun a => (total : ℚ) * a / areas.sum).sum := by
      rw [List.map_map]
      apply List.sum_le_sum
      intro a _
      exact Int.floor_le _
    have hle2 : (areas.dropLast.map fun a => (total : ℚ) * a / areas.sum).sum
        ≤ (total : ℚ) := by
      rw [sum_map_mul_div]
      calc (total : ℚ) / areas.sum * areas.dropLast.sum
          ≤ (total : ℚ) / areas.sum * areas.sum := by
            apply mul_le_mul_of_nonneg_left hdrople
            exact div_nonneg (by exact_mod_cast htot) (le_of_lt hS)
        _ = (total : ℚ) := div_mul_cancel₀ _ hS0
    have hcast := le_trans hle1 hle2
    rw [← intCast_list_sum] at hcast
    exact_mod_cast hcast
  have hlast_nonneg :
      (0 : ℤ) ≤ total - (areas.dropLast.map fun a => ⌊(total : ℚ) * a / areas.sum⌋).sum := by
    omega
  have hloop := distribute_loop_eq total areas.sum areas 0 hne
  have hresult : distribute_trees_across_polygons areas total =
      (areas.dropLast.map fun a => ⌊(total : ℚ) * a / areas.sum⌋)
        ++ [total - ((areas.dropLast.map fun a => ⌊(total : ℚ) * a / areas.sum⌋).sum)] := by
    rw [distribute_trees_across_polygons]
    simp only [hS0, if_false]
    rw [hloop, hmap_max_eq, hmap_eq]
    congr 1
    simp only [sub_zero, List.cons.injEq, and_true]
    exact max_eq_right hlast_nonneg
  refine ⟨hresult, ?_, ?_⟩
  · intro c hc
    rw [hresult] at hc
    rcases List.mem_append.mp hc with hcl | hcr
    · rcases List.mem_map.mp hcl with ⟨a, hadrop, rfl⟩
      exact hfloor_nonneg a hadrop
    · have hceq : c = total
          - (areas.dropLast.map fun a => ⌊(total : ℚ) * a / areas.sum⌋).sum := by
        simpa using hcr
      omega
  · rw [hresult, List.sum_append, List.sum_cons, List.sum_nil]
    ring

/-- Witness for `distribute_trees_across_polygons_spec` at a concrete
two-part input: areas [1, 1] with 3 trees distribute as [1, 2]. -/
theorem distribute_trees_across_polygons_spec_witness :
    ([(1 : ℚ), 1] ≠ [] ∧ (∀ a ∈ [(1 : ℚ), 1], 0 < a) ∧ (0 : ℤ) ≤ 3)
    ∧ (distribute_trees_across_polygons [(1 : ℚ), 1] 3).sum = 3
    ∧ distribute_trees_across_polygons [(1 : ℚ), 1] 3 = [1, 2] := by
  refine ⟨⟨by decide, by decide, by decide⟩, ?_,
    by norm_num [distribute_trees_across_polygons, distribute_loop, pyInt]⟩
  exact (distribute_trees_across_polygons_spec [(1 : ℚ), 1] 3 (by decide) (by decide)
    (by decide)).2.2

/-! ### Point Sampler
(processor.py, `generate_random_points_in_polygon` lines 515-534,
`_grid_based_sampling` lines 536-571, `_rejection_sampling_adaptive`
lines 573-614)

A shapely polygon is modelled by the data the sampler reads from it: its
membership test (`polygon.contains`), validity flag, bounding box and
planar area. Randomness is passed in explicitly: the jittered grid
positions produced by the grid walk, the index choice made by
`random.sample`, and the stream of uniform draws inside the bounding box
consumed by rejection sampling. -/

structure PyPolygon where
  contains : ℚ × ℚ → Bool
  is_valid : Bool
  min_x : ℚ
  min_y : ℚ
  max_x : ℚ
  max_y : ℚ
  area : ℚ

structure SamplerDraws where
  grid_positions : List (ℚ × ℚ)
  grid_sample_choice : List ℕ
  grid_raised : Bool
  rejection_stream : List (ℚ × ℚ)

/-- Model of `random.sample(xs, k)`: a selection of k members of `xs`,
driven by the random index choice. -/
def py_random_sample {α : Type} (xs : List α) (k : ℕ) (choice : List ℕ) : List α :=
  (choice.filterMap fun i => xs.get? i).take k

/-- Embedding of `_grid_based_sampling` (lines 536-571): walk the jittered
grid positions, keep those inside the polygon, collect at most `2 * n`
candidates (the loop guards stop at `num_points * 2`), then subsample down
to `n` via `random.sample` when more than `n` were found. -/
def grid_based_sampling (polygon : PyPolygon) (num_points : ℕ) (draws : SamplerDraws) :
    List (ℚ × ℚ) :=
  let points := (draws.grid_positions.filter polygon.contains).take (2 * num_points)
  if num_points < points.length then py_random_sample points num_points draws.grid_sample_choice
  else points

/-- Embedding of the attempt-budget computation of
`_rejection_sampling_adaptive` (lines 579-587). -/
def rejection_max_attempts (polygon : PyPolygon) (num_points : ℕ) : ℤ :=
  let bbox_area := (polygon.max_x - polygon.min_x) * (polygon.max_y - polygon.min_y)
  let efficiency := if 0 < bbox_area then polygon.area / bbox_area else 1 / 10
  let max_attempts :=
    pyInt ((num_points : ℚ) * (MAX_TREE_ATTEMPTS : ℚ) / max efficiency (1 / 10))
  min max_attempts ((num_points : ℤ) * 500)

/-- Embedding of the rejection loop (lines 589-614). Each draw is tested
with `polygon.is_valid and polygon.contains(point)`; a success resets the
consecutive-failure counter (so the subsequent break test `0 > 50 * n`
never fires), a failure increments it and breaks past `50 * n`. The
membership test is a total boolean function here, so the `except` branch of
the source (a raising containment test) has no inhabitant in the model. -/
def rejection_loop (polygon : PyPolygon) (num_points : ℕ) (max_attempts : ℤ) :
    List (ℚ × ℚ) → List (ℚ × ℚ) → ℕ → ℕ → List (ℚ × ℚ)
  | [], points, _, _ => points
  | draw :: rest, points, attempts, consecutive_failures =>
    if points.length < num_points ∧ (attempts : ℤ) < max_attempts then
      if polygon.is_valid && polygon.contains draw then
        if num_points * 50 < 0 then points ++ [draw]
        else rejection_loop polygon num_points max_attempts rest (points ++ [draw])
          (attempts + 1) 0
      else
        if num_points * 50 < consecutive_failures + 1 then points
        else rejection_loop polygon num_points max_attempts rest points (attempts + 1)
          (consecutive_failures + 1)
    else points

/-- Embedding of `_rejection_sampling_adaptive` (lines 573-614). -/
def rejection_sampling_adaptive (polygon : PyPolygon) (num_points : ℕ)
    (stream : List (ℚ × ℚ)) : List (ℚ × ℚ) :=
  rejection_loop polygon num_points (rejection_max_attempts polygon num_points)
    stream [] 0 0

/-- Embedding of `generate_random_points_in_polygon` (lines 515-534):
return `[]` for a non-positive request, try the grid phase (any exception
is swallowed), accept its output truncated to `n` when it reached 80% of
`n` (the float literal 0.8 is the exact rational 8/10 here), otherwise fall
back to rejection sampling. -/
def generate_random_points_in_polygon (polygon : PyPolygon) (num_points : ℕ)
    (draws : SamplerDraws) : List (ℚ × ℚ) :=
  if num_points = 0 then []
  else if draws.grid_raised then
    rejection_sampling_adaptive polygon num_points draws.rejection_stream
  else
    let points := grid_based_sampling polygon num_points draws
    if (num_points : ℚ) * (8 / 10) ≤ (points.length : ℚ) then points.take num_points
    else rejection_sampling_adaptive polygon num_points draws.rejection_stream

/-! ### Theorems about the Point Sampler -/

theorem rejection_loop_length (polygon : PyPolygon) (num_points : ℕ) (max_attempts : ℤ) :
    ∀ (stream points : List (ℚ × ℚ)) (attempts consecutive_failures : ℕ),
      points.length ≤ num_points →
      (rejection_loop polygon num_points max_attempts stream points attempts
          consecutive_failures).length ≤ num_points := by
  intro stream
  induction stream with
  | nil => intro points _ _ h; simpa [rejection_loop] using h
  | cons draw rest ih =>
    intro points attempts consecutive_failures h
    rw [rejection_loop]
    split
    · rename_i hcond
      split
      · split
        · simpa using hcond.1
        · exact ih (points ++ [draw]) (attempts + 1) 0 (by simpa using hcond.1)
      · split
        · exact h
        · exact ih points (attempts + 1) (consecutive_failures + 1) h
    · exact h

theorem rejection_loop_contains (polygon : PyPolygon) (num_points : ℕ) (max_attempts : ℤ) :
    ∀ (stream points : List (ℚ × ℚ)) (attempts consecutive_failures : ℕ),
      (∀ p ∈ points, polygon.contains p = true) →
      ∀ p ∈ rejection_loop polygon num_points max_attempts stream points attempts
          consecutive_failures, polygon.contains p = true := by
  intro stream
  induction stream with
  | nil => intro points _ _ h; simpa [rejection_loop] using h
  | cons draw rest ih =>
    intro points attempts consecutive_failures h
    rw [rejection_loop]
    split
    · split
      · rename_i htest
        have hd : polygon.contains draw = true := by
          simp only [Bool.and_eq_true] at htest
          exact htest.2
        have hall : ∀ p ∈ points ++ [draw], polygon.contains p = true := by
          intro p hp
          rcases List.mem_append.mp hp with hpl | hpr
          · exact h p hpl
          · have hpd : p = draw := by simpa using hpr
            rw [hpd]
            exact hd
        split
        · exact hall
        · exact ih (points ++ [draw]) (attempts + 1) 0 hall
      · split
        · exact h
        · exact ih points (attempts + 1) (consecutive_failures + 1) h
    · exact h

theorem grid_based_sampling_contains (polygon : PyPolygon) (num_points : ℕ)
    (draws : SamplerDraws) :
    ∀ p ∈ grid_based_sampling polygon num_points draws, polygon.contains p = true := by
  intro p hp
  have hfilter : ∀ q ∈ (draws.grid_positions.filter polygon.contains).take (2 * num_points),
      polygon.contains q = true := by
    intro q hq
    exact List.of_mem_filter (List.take_subset _ _ hq)
  simp only [grid_based_sampling] at hp
  split at hp
  · have hmem : p ∈ (draws.grid_positions.filter polygon.contains).take (2 * num_points) := by
      have hsub := List.take_subset num_points
        ((draws.grid_sample_choice.filterMap
          fun i => ((draws.grid_positions.filter polygon.contains).take (2 * num_points)).get? i))
      have hp2 := hsub hp
      rcases List.mem_filterMap.mp hp2 with ⟨i, _, hget⟩
      exact List.get?_mem hget
    exact hfilter p hmem
  · exact hfilter p hp

/-- C1: for every polygon, every requested count and every randomness
input, the point sampler returns at most `n` points, every returned point
satisfies the polygon membership test `polygon.contains`, and it returns
exactly no points when `n = 0`. -/
theorem generate_random_points_in_polygon_spec (polygon : PyPolygon) (num_points : ℕ)
    (draws : SamplerDraws) :
    (generate_random_points_in_polygon polygon num_points draws).length ≤ num_points
    ∧ (∀ p ∈ generate_random_points_in_polygon polygon num_points draws,
        polygon.contains p = true)
    ∧ (num_points = 0 → generate_random_points_in_polygon polygon num_points draws = []) := by
  have hrejlen : (rejection_sampling_adaptive polygon num_points
      draws.rejection_stream).length ≤ num_points :=
    rejection_loop_length polygon num_points _ draws.rejection_stream [] 0 0 (by simp)
  have hrejmem : ∀ p ∈ rejection_sampling_adaptive polygon num_points
      draws.rejection_stream, polygon.contains p = true :=
    rejection_loop_contains polygon num_points _ draws.rejection_stream [] 0 0 (by simp)
  refine ⟨?_, ?_, ?_⟩
  · simp only [generate_random_points_in_polygon]
    split
    · simp
    · split
      · exact hrejlen
      · split
        · simp
        · exact hrejlen
  · intro p hp
    simp only [generate_random_points_in_polygon] at hp
    split at hp
    · simp at hp
    · split at hp
      · exact hrejmem p hp
      · split at hp
        · exact grid_based_sampling_contains polygon num_points draws p
            (List.take_subset _ _ hp)
        · exact hrejmem p hp
  · intro h0
    simp [generate_random_points_in_polygon, h0]

/-- A concrete polygon and draw stream for the sampler witness. -/
def sample_polygon : PyPolygon where
  contains := fun p => decide (p.1 + p.2 ≤ 1)
  is_valid := true
  min_x := 0
  min_y := 0
  max_x := 1
  max_y := 1
  area := 1 / 2

def sample_draws : SamplerDraws where
  grid_positions := [(0, 0), (1, 1)]
  grid_sample_choice := []
  grid_raised := false
  rejection_stream := [(2, 2), (0, 1 / 2)]

/-- Witness for `generate_random_points_in_polygon_spec` at a concrete
polygon, request and draw stream. -/
theorem generate_random_points_in_polygon_spec_witness :
    (generate_random_points_in_polygon sample_polygon 2 sample_draws).length ≤ 2
    ∧ (∀ p ∈ generate_random_points_in_polygon sample_polygon 2 sample_draws,
        sample_polygon.contains p = true)
    ∧ (2 = 0 → generate_random_points_in_polygon sample_polygon 2 sample_draws = []) :=
  generate_random_points_in_polygon_spec sample_polygon 2 sample_draws

/-! ### Boundary Clipper
(processor.py, `clip_to_boundary` lines 377-421 and
`_clip_to_boundary_fallback` lines 423-451)

Planar regions are modelled set-theoretically as finite point sets, with
shapely intersection as set intersection; the area measurement used by the
empty-or-zero-area filter is kept abstract (an arbitrary function on
regions), since the idempotence of clipping does not depend on it. The
spatial-index prefilter of the indexed path only skips features whose
intersection is computed to be empty, so both the indexed path and the
row-by-row fallback restrict each kept feature to its intersection with the
boundary and drop the empty or zero-area results, which is what is
embedded here. -/

def clip_feature (area_of : Finset (ℚ × ℚ) → ℚ) (boundary : Finset (ℚ × ℚ))
    (geom : Finset (ℚ × ℚ)) : Option (Finset (ℚ × ℚ)) :=
  let clipped := geom ∩ boundary
  if clipped ≠ ∅ ∧ 0 < area_of clipped then some clipped else none

/-- Embedding of `clip_to_boundary`: every feature is replaced by its
intersection with the feature boundary; empty and zero-area results are
dropped. -/
def clip_to_boundary (area_of : Finset (ℚ × ℚ) → ℚ) (boundary : Finset (ℚ × ℚ))
    (features : List (Finset (ℚ × ℚ))) : List (Finset (ℚ × ℚ)) :=
  features.filterMap (clip_feature area_of boundary)

theorem clip_feature_of_clipped (area_of : Finset (ℚ × ℚ) → ℚ)
    (boundary geom clipped : Finset (ℚ × ℚ))
    (h : clip_feature area_of boundary geom = some clipped) :
    clip_feature area_of boundary clipped = some clipped := by
  simp only [clip_feature] at h
  split at h
  · rename_i hcond
    have hval : clipped = geom ∩ boundary := by
      exact (Option.some.injEq _ _ ▸ h).symm
    have hsub : clipped ∩ boundary = clipped := by
      rw [hval, Finset.inter_assoc, Finset.inter_self]
    simp only [clip_feature, hsub]
    rw [if_pos]
    rw [hval]
    exact hcond
  · exact absurd h (by simp)

/-- C4: clipping is idempotent — applying `clip_to_boundary` to an
already-clipped feature collection against the same boundary returns the
same collection: every kept geometry is unchanged and nothing further is
dropped. -/
theorem clip_to_boundary_idempotent (area_of : Finset (ℚ × ℚ) → ℚ)
    (boundary : Finset (ℚ × ℚ)) (features : List (Finset (ℚ × ℚ))) :
    clip_to_boundary area_of boundary (clip_to_boundary area_of boundary features)
      = clip_to_boundary area_of boundary features := by
  induction features with
  | nil => rfl
  | cons geom rest ih =>
    simp only [clip_to_boundary, List.filterMap_cons] at ih ⊢
    cases hg : clip_feature area_of boundary geom with
    | none => simpa [hg] using ih
    | some clipped =>
      simp only [List.filterMap_cons, clip_feature_of_clipped area_of boundary geom clipped hg]
      rw [ih]

/-- Witness for `clip_to_boundary_idempotent` at a concrete boundary and
feature list with the cardinality area measure. -/
theorem clip_to_boundary_idempotent_witness :
    clip_to_boundary (fun c => (c.card : ℚ)) {((0 : ℚ), (0 : ℚ))}
        (clip_to_boundary (fun c => (c.card : ℚ)) {((0 : ℚ), (0 : ℚ))}
          [{((0 : ℚ), (0 : ℚ))}, {((1 : ℚ), (1 : ℚ))}])
      = clip_to_boundary (fun c => (c.card : ℚ)) {((0 : ℚ), (0 : ℚ))}
          [{((0 : ℚ), (0 : ℚ))}, {((1 : ℚ), (1 : ℚ))}] :=
  clip_to_boundary_idempotent (fun c => (c.card : ℚ)) {((0 : ℚ), (0 : ℚ))}
    [{((0 : ℚ), (0 : ℚ))}, {((1 : ℚ), (1 : ℚ))}]

/-! ### Area Calculator
(processor.py, `_calculate_area_in_sq_meters` lines 480-513)

A shapely geometry is modelled by the data the area calculator reads from
it: null/empty/validity flags, the metric data of the geometry
(bounding box, planar area in square degrees, projected Web Mercator
area), and the corresponding data of its `buffer(0)` repair. The flag
`ops_fail` marks an input on which some geometry operation raises; the
source catches every exception, logs a warning and returns 0. The cosine
of the latitude (in radians) computed through `math.cos(math.radians(x))`
is passed in as an abstract function `cos_of_degrees`. -/

structure GeoMetrics where
  min_x : ℚ
  min_y : ℚ
  max_x : ℚ
  max_y : ℚ
  area_sq_degrees : ℚ
  projected_area : ℚ

structure GeoInput where
  is_null : Bool
  is_empty : Bool
  is_valid : Bool
  ops_fail : Bool
  metrics : GeoMetrics
  repaired_valid : Bool
  repaired_metrics : GeoMetrics

/-- The flat-Earth branch of the area calculator (lines 494-504):
`area_degrees * 111320 * 111320 * cos(radians(lat_center))` with
`lat_center = (bounds[1] + bounds[3]) / 2`. -/
def flat_earth_area (cos_of_degrees : ℚ → ℚ) (m : GeoMetrics) : ℚ :=
  let lat_center := (m.min_y + m.max_y) / 2
  m.area_sq_degrees * 111320 * 111320 * cos_of_degrees lat_center

/-- Embedding of `_calculate_area_in_sq_meters` (lines 480-513): 0 for a
null or empty geometry; caught exception gives 0; invalid geometry is
repaired with `buffer(0)` and gives 0 when still invalid; a bounding box
under 0.01 degrees in both axes takes the flat-Earth approximation, larger
geometries take the projected (EPSG:3857) area. -/
def calculate_area_in_sq_meters (cos_of_degrees : ℚ → ℚ) (g : GeoInput) : ℚ :=
  if g.is_null || g.is_empty then 0
  else if g.ops_fail then 0
  else
    let valid_and_metrics :=
      if g.is_valid then (true, g.metrics) else (g.repaired_valid, g.repaired_metrics)
    if valid_and_metrics.1 = false then 0
    else
      let m := valid_and_metrics.2
      if m.max_x - m.min_x < 1 / 100 ∧ m.max_y - m.min_y < 1 / 100 then
        flat_earth_area cos_of_degrees m
      else m.projected_area

/-! ### Theorems about the Area Calculator -/

/-- C6: for a non-null, non-empty, valid geometry whose bounding box spans
less than 0.01 degrees in both axes (and on which no geometry operation
raises), the area calculator returns the area in square degrees multiplied
by `111320 * 111320 * cos(mean latitude of the bounding box, in radians)`. -/
theorem calculate_area_small_geometry (cos_of_degrees : ℚ → ℚ) (g : GeoInput)
    (hnull : g.is_null = false) (hempty : g.is_empty = false)
    (hvalid : g.is_valid = true) (hops : g.ops_fail = false)
    (hx : g.metrics.max_x - g.metrics.min_x < 1 / 100)
    (hy : g.metrics.max_y - g.metrics.min_y < 1 / 100) :
    calculate_area_in_sq_meters cos_of_degrees g
      = g.metrics.area_sq_degrees * 111320 * 111320
          * cos_of_degrees ((g.metrics.min_y + g.metrics.max_y) / 2) := by
  simp [calculate_area_in_sq_meters, flat_earth_area, hnull, hempty, hvalid, hops, hx, hy]
  intro hcon
  rw [one_div] at hx hy
  exact absurd (hcon hx) (not_le.mpr hy)

/-- Concrete metric data used by witnesses below. -/
def zero_metrics : GeoMetrics where
  min_x := 0
  min_y := 0
  max_x := 0
  max_y := 0
  area_sq_degrees := 0
  projected_area := 0

def tiny_metrics : GeoMetrics where
  min_x := 0
  min_y := 0
  max_x := 1 / 1000
  max_y := 1 / 1000
  area_sq_degrees := 1 / 1000000
  projected_area := 0

def tiny_geometry : GeoInput where
  is_null := false
  is_empty := false
  is_valid := true
  ops_fail := false
  metrics := tiny_metrics
  repaired_valid := false
  repaired_metrics := zero_metrics

def empty_geometry : GeoInput where
  is_null := false
  is_empty := true
  is_valid := true
  ops_fail := false
  metrics := zero_metrics
  repaired_valid := false
  repaired_metrics := zero_metrics

/-- Witness for `calculate_area_small_geometry` at a concrete small
geometry and the constant-one cosine. -/
theorem calculate_area_small_geometry_witness :
    calculate_area_in_sq_meters (fun _ => 1) tiny_geometry
      = tiny_geometry.metrics.area_sq_degrees * 111320 * 111320
          * (fun _ => (1 : ℚ)) ((tiny_geometry.metrics.min_y + tiny_geometry.metrics.max_y) / 2) :=
  calculate_area_small_geometry (fun _ => 1) tiny_geometry rfl rfl rfl rfl
    (by norm_num [tiny_geometry, tiny_metrics]) (by norm_num [tiny_geometry, tiny_metrics])

/-- C8: the area calculator returns 0 for a null or empty geometry,
returns 0 for a geometry that is still invalid after the repair attempt,
and returns 0 when any internal operation fails; being a total function,
it never raises. -/
theorem calculate_area_never_raises (cos_of_degrees : ℚ → ℚ) (g : GeoInput) :
    (g.is_null = true ∨ g.is_empty = true → calculate_area_in_sq_meters cos_of_degrees g = 0)
    ∧ (g.is_valid = false → g.repaired_valid = false →
        calculate_area_in_sq_meters cos_of_degrees g = 0)
    ∧ (g.ops_fail = true → calculate_area_in_sq_meters cos_of_degrees g = 0) := by
  refine ⟨?_, ?_, ?_⟩
  · intro h
    rcases h with h | h <;> simp [calculate_area_in_sq_meters, h]
  · intro hv hr
    by_cases hn : g.is_null = true
    · simp [calculate_area_in_sq_meters, hn]
    · by_cases he : g.is_empty = true
      · simp [calculate_area_in_sq_meters, he]
      · by_cases ho : g.ops_fail = true
        · simp [calculate_area_in_sq_meters, hn, he, ho]
        · simp [calculate_area_in_sq_meters, hn, he, ho, hv, hr]
  · intro ho
    by_cases hn : g.is_null = true
    · simp [calculate_area_in_sq_meters, hn]
    · by_cases he : g.is_empty = true
      · simp [calculate_area_in_sq_meters, he]
      · simp [calculate_area_in_sq_meters, hn, he, ho]

/-- Witness for `calculate_area_never_raises` at a concrete empty
geometry. -/
theorem calculate_area_never_raises_witness :
    calculate_area_in_sq_meters (fun _ => 1) empty_geometry = 0 :=
  (calculate_area_never_raises (fun _ => 1) empty_geometry).1 (Or.inr rfl)

/-! ### Pipeline Orchestrator
(processor.py, `load_data` lines 307-375 and `create_output_geojson`
lines 943-987)

`load_data` is embedded through the ZoneType handling that decides its
success: the `ZoneType` column is normalized (lowercase, spaces to
underscores), then the rows whose normalized value is `feature_boundary`
are selected, and an empty selection raises a `ValueError` with a
descriptive message. File reading and the OSM fetch are external
collaborators; the classified feature lists their processing produces are
inputs of the orchestrator model. -/

/-- Model of the source normalization
`.str.lower().str.replace(' ', '_')` (line 317). The replaced pattern is
the single space character, so lowering and replacing act independently on
each character. -/
def normalize_zone_type (s : String) : String :=
  String.mk (s.data.map fun c => if c = ' ' then '_' else c.toLower)

def missing_feature_boundary_message (zone_types : List String) : String :=
  let sep : String := ", "
  let head_text : String := "Missing required feature_boundary zone in boundaries.geojson. Found zones: "
  let tail_text : String := ". Required: at least one feature with ZoneType feature_boundary. This boundary defines where trees and rocks can be placed."
  head_text ++ String.intercalate sep zone_types ++ tail_text

/-- Embedding of the `ZoneType` handling of `load_data` (lines 316-343):
normalize the zone types, select the `feature_boundary` rows, and fail
with the descriptive error message when none exists. -/
def load_data_zone_check (zone_types : List String) : Except String (List String) :=
  let normalized := zone_types.map normalize_zone_type
  let feature_boundary_rows := normalized.filter fun z => z == "feature_boundary"
  if feature_boundary_rows.isEmpty then
    Except.error (missing_feature_boundary_message normalized)
  else Except.ok normalized

/-- A tree-point output feature: geometry, tag data, and the sequential
integer id added by the orchestrator (absent until assigned). -/
structure TreePointFeature where
  x : ℚ
  y : ℚ
  source : String
  tree_type : String
  id : Option ℕ

/-- Embedding of the id-assignment loop of `create_output_geojson`
(lines 959-961): `enumerate(all_tree_points, start=1)` writes
`properties['id'] = tree_id` on each tree point of the merged list. -/
def assign_tree_ids : ℕ → List TreePointFeature → List TreePointFeature
  | _, [] => []
  | next_id, t :: rest => { t with id := some next_id } :: assign_tree_ids (next_id + 1) rest

structure OutputMetadata where
  total_features : ℕ
  boundary_feature_count : ℕ
  forest_feature_count : ℕ
  tree_points_total : ℕ
  tree_points_osm : ℕ
  tree_points_generated : ℕ
  tree_id_range : ℕ × ℕ
  rock_feature_count : ℕ

structure OutputGeojson (β : Type) where
  boundary_features : List β
  forest_features : List β
  tree_features : List TreePointFeature
  rock_features : List β
  metadata : OutputMetadata

/-- Inputs of one orchestrator run: the ZoneType column of the boundaries
file, and the classified feature lists produced by the processing steps
(boundary styling, forest polygons, OSM tree nodes, generated tree points,
rocks). `β` is the type of non-tree output features. -/
structure PipelineInput (β : Type) where
  zone_types : List String
  boundary_features : List β
  forest_features : List β
  osm_tree_points : List TreePointFeature
  generated_tree_points : List TreePointFeature
  rock_features : List β

/-- The merged output built on the success path of `create_output_geojson`
(lines 956-985): the OSM-sourced and generated tree points are merged, ids
are assigned in a single pass over the merged list, and the metadata block
is filled with the category counts and the
`{min: 1, max: n} if all_tree_points else {min: 0, max: 0}` id range. -/
def build_output (inp : PipelineInput β) : OutputGeojson β :=
  let all_tree_points := inp.osm_tree_points ++ inp.generated_tree_points
  let all_tree_points := assign_tree_ids 1 all_tree_points
  { boundary_features := inp.boundary_features
    forest_features := inp.forest_features
    tree_features := all_tree_points
    rock_features := inp.rock_features
    metadata := {
      total_features := inp.boundary_features.length + inp.forest_features.length
        + all_tree_points.length + inp.rock_features.length
      boundary_feature_count := inp.boundary_features.length
      forest_feature_count := inp.forest_features.length
      tree_points_total := all_tree_points.length
      tree_points_osm := inp.osm_tree_points.length
      tree_points_generated := inp.generated_tree_points.length
      tree_id_range := if all_tree_points.isEmpty then (0, 0) else (1, all_tree_points.length)
      rock_feature_count := inp.rock_features.length } }

/-- Embedding of `create_output_geojson` (lines 943-987): `load_data`
runs first (raising on a missing feature boundary, before any clipping or
tree generation), then the merged output is built. -/
def create_output_geojson (inp : PipelineInput β) : Except String (OutputGeojson β) :=
  match load_data_zone_check inp.zone_types with
  | Except.error e => Except.error e
  | Except.ok _ => Except.ok (build_output inp)

/-! ### Theorems about the Orchestrator -/

theorem assign_tree_ids_length : ∀ (l : List TreePointFeature) (i : ℕ),
    (assign_tree_ids i l).length = l.length := by
  intro l
  induction l with
  | nil => intro i; rfl
  | cons t rest ih =>
    intro i
    simp [assign_tree_ids, ih]

theorem assign_tree_ids_map_id : ∀ (l : List TreePointFeature) (i : ℕ),
    (assign_tree_ids i l).map TreePointFeature.id = (List.range' i l.length).map some := by
  intro l
  induction l with
  | nil => intro i; rfl
  | cons t rest ih =>
    intro i
    simp only [assign_tree_ids, List.map_cons, List.length_cons, List.range'_succ, ih]

theorem ok_of_feature_boundary_mem {zone_types : List String}
    (h : "feature_boundary" ∈ zone_types.map normalize_zone_type) :
    load_data_zone_check zone_types = Except.ok (zone_types.map normalize_zone_type) := by
  simp only [load_data_zone_check]
  rw [if_neg]
  simp only [List.isEmpty_iff, List.filter_eq_nil_iff, not_forall]
  exact ⟨"feature_boundary", h, by simp⟩

theorem create_output_ok_of_mem {β : Type} (inp : PipelineInput β)
    (hfb : "feature_boundary" ∈ inp.zone_types.map normalize_zone_type) :
    create_output_geojson inp = Except.ok (build_output inp) := by
  simp only [create_output_geojson, ok_of_feature_boundary_mem hfb]

/-- C5: on every successful orchestrator run, the tree ids of the merged
list of OSM-sourced and generated tree points are exactly the consecutive
values 1..n assigned over the merged list, hence pairwise unique, and the
largest id equals the reported `tree_points_total`, which is the merged
length. -/
theorem create_output_tree_ids (β : Type) (inp : PipelineInput β)
    (hfb : "feature_boundary" ∈ inp.zone_types.map normalize_zone_type) :
    ∃ out, create_output_geojson inp = Except.ok out
      ∧ out.tree_features.map TreePointFeature.id
          = (List.range' 1 (inp.osm_tree_points.length + inp.generated_tree_points.length)).map some
      ∧ (out.tree_features.map TreePointFeature.id).Nodup
      ∧ out.metadata.tree_points_total
          = inp.osm_tree_points.length + inp.generated_tree_points.length
      ∧ (0 < out.metadata.tree_points_total →
          some out.metadata.tree_points_total ∈ out.tree_features.map TreePointFeature.id
          ∧ ∀ j : ℕ, some j ∈ out.tree_features.map TreePointFeature.id →
              j ≤ out.metadata.tree_points_total) := by
  have hids : (build_output inp).tree_features.map TreePointFeature.id
      = (List.range' 1 (inp.osm_tree_points.length + inp.generated_tree_points.length)).map
          some := by
    simp only [build_output, assign_tree_ids_map_id, List.length_append]
  have htot : (build_output inp).metadata.tree_points_total
      = inp.osm_tree_points.length + inp.generated_tree_points.length := by
    simp only [build_output, assign_tree_ids_length, List.length_append]
  refine ⟨build_output inp, create_output_ok_of_mem inp hfb, hids, ?_, htot, ?_⟩
  · rw [hids]
    exact List.Nodup.map (Option.some_injective ℕ) (List.nodup_range' _ _)
  · intro hpos
    rw [htot] at hpos
    constructor
    · rw [hids, htot]
      apply List.mem_map_of_mem
      rw [List.mem_range'_1]
      omega
    · intro j hj
      rw [hids] at hj
      rw [htot]
      rcases List.mem_map.mp hj with ⟨k, hk, hkeq⟩
      rw [List.mem_range'_1] at hk
      have hkj : k = j := Option.some_injective ℕ hkeq
      omega

/-- Witness for `create_output_tree_ids` at a concrete run with one OSM
tree and one generated tree. -/
theorem create_output_tree_ids_witness :
    ∃ out, create_output_geojson
        { zone_types := ["Feature Boundary"], boundary_features := ([] : List Unit),
          forest_features := [], osm_tree_points := [⟨0, 0, "osm", "tree:mixed", none⟩],
          generated_tree_points := [⟨1, 1, "generated", "tree:mixed", none⟩],
          rock_features := [] }
      = Except.ok out
      ∧ out.tree_features.map TreePointFeature.id = (List.range' 1 (1 + 1)).map some
      ∧ (out.tree_features.map TreePointFeature.id).Nodup
      ∧ out.metadata.tree_points_total = 1 + 1
      ∧ (0 < out.metadata.tree_points_total →
          some out.metadata.tree_points_total ∈ out.tree_features.map TreePointFeature.id
          ∧ ∀ j : ℕ, some j ∈ out.tree_features.map TreePointFeature.id →
              j ≤ out.metadata.tree_points_total) := by
  have happ := create_output_tree_ids Unit
    { zone_types := ["Feature Boundary"], boundary_features := ([] : List Unit),
      forest_features := [], osm_tree_points := [⟨0, 0, "osm", "tree:mixed", none⟩],
      generated_tree_points := [⟨1, 1, "generated", "tree:mixed", none⟩],
      rock_features := [] }
    (by decide)
  simpa using happ

/-- C9: a boundary input with no normalized `feature_boundary` zone makes
the orchestrator fail with the descriptive load error before producing any
output, while an input containing at least one `feature_boundary` zone
never triggers this error. -/
theorem load_data_requires_feature_boundary (β : Type) (inp : PipelineInput β) :
    ((inp.zone_types.map normalize_zone_type).filter (fun z => z == "feature_boundary") = [] →
      load_data_zone_check inp.zone_types
          = Except.error (missing_feature_boundary_message (inp.zone_types.map normalize_zone_type))
        ∧ create_output_geojson inp
          = Except.error (missing_feature_boundary_message (inp.zone_types.map normalize_zone_type)))
    ∧ ("feature_boundary" ∈ inp.zone_types.map normalize_zone_type →
        ∃ out, create_output_geojson inp = Except.ok out) := by
  constructor
  · intro hnone
    have herr : load_data_zone_check inp.zone_types
        = Except.error (missing_feature_boundary_message
            (inp.zone_types.map normalize_zone_type)) := by
      simp only [load_data_zone_check]
      rw [if_pos]
      rw [hnone]
      rfl
    exact ⟨herr, by simp only [create_output_geojson, herr]⟩
  · intro hfb
    exact ⟨build_output inp, create_output_ok_of_mem inp hfb⟩

/-- Witness for `load_data_requires_feature_boundary` at a concrete
boundary input lacking a feature boundary. -/
theorem load_data_requires_feature_boundary_witness :
    load_data_zone_check ["Ski Area Boundary"]
      = Except.error (missing_feature_boundary_message ["ski_area_boundary"]) := by
  have happ := (load_data_requires_feature_boundary Unit
    { zone_types := ["Ski Area Boundary"], boundary_features := ([] : List Unit),
      forest_features := [], osm_tree_points := [], generated_tree_points := [],
      rock_features := [] }).1
  have hres := happ (by decide)
  have hnorm : List.map normalize_zone_type ["Ski Area Boundary"] = ["ski_area_boundary"] := by
    decide
  rw [hnorm] at hres
  exact hres.1

/-- C10: on every successful orchestrator run, the metadata
`tree_id_range` is `{min: 0, max: 0}` when the merged run produced zero
tree points, and `{min: 1, max: number of tree points}` otherwise. -/
theorem tree_id_range_cases (β : Type) (inp : PipelineInput β)
    (hfb : "feature_boundary" ∈ inp.zone_types.map normalize_zone_type) :
    ∃ out, create_output_geojson inp = Except.ok out
      ∧ (inp.osm_tree_points.length + inp.generated_tree_points.length = 0 →
          out.metadata.tree_id_range = (0, 0))
      ∧ (0 < inp.osm_tree_points.length + inp.generated_tree_points.length →
          out.metadata.tree_id_range
            = (1, inp.osm_tree_points.length + inp.generated_tree_points.length)) := by
  refine ⟨build_output inp, create_output_ok_of_mem inp hfb, ?_, ?_⟩
  · intro hzero
    have hempty : (assign_tree_ids 1 (inp.osm_tree_points ++ inp.generated_tree_points)).isEmpty
        = true := by
      rw [List.isEmpty_iff, ← List.length_eq_zero]
      rw [assign_tree_ids_length, List.length_append]
      exact hzero
    simp [build_output, hempty]
  · intro hpos
    have hnonempty : (assign_tree_ids 1 (inp.osm_tree_points ++ inp.generated_tree_points)).isEmpty
        = false := by
      rw [List.isEmpty_eq_false, ← List.length_pos]
      rw [assign_tree_ids_length, List.length_append]
      exact hpos
    simp [build_output, hnonempty, assign_tree_ids_length]

/-- Witness for `tree_id_range_cases` at a concrete run with no tree
points. -/
theorem tree_id_range_cases_witness :
    ∃ out, create_output_geojson
        { zone_types := ["feature_boundary"], boundary_features := ([] : List Unit),
          forest_features := [], osm_tree_points := [], generated_tree_points := [],
          rock_features := [] }
      = Except.ok out
      ∧ out.metadata.tree_id_range = (0, 0) := by
  have happ := tree_id_range_cases Unit
    { zone_types := ["feature_boundary"], boundary_features := ([] : List Unit),
      forest_features := [], osm_tree_points := [], generated_tree_points := [],
      rock_features := [] }
    (by decide)
  rcases happ with ⟨out, hok, hzero, _⟩
  exact ⟨out, hok, hzero rfl⟩

end GeoWeld
